import Mathlib

/-!
Verification of the ETL reconciliation pipeline in `actualizar_bd.py`
(repository JURIDICO_BI).

The pipeline fetches three entity lists (clientes, casos, contratos de
servicio) from a GraphQL endpoint, flattens and cleans them with pandas
(`procesar_datos_servicios`, `limpiar_dataframes`) and merges them into three
SQL Server tables with `MERGE ... WHEN NOT MATCHED THEN INSERT` statements,
committing once at the end of the run.

The shallow embedding below models:
 * cell values (`Value`) — JSON scalars and the coerced date/number values;
 * the pandas dataframes actually built by the script (`DataFrame`,
   `pdDataFrame`, `DataFrame.dropDuplicates`, `DataFrame.rename`,
   `DataFrame.coerceCol`) with pandas' documented behaviour, including the
   fact that `drop_duplicates` returns an empty copy of an empty frame
   without validating the `subset` column, while column access `df[c]`
   raises `KeyError` for a missing column;
 * the type coercions `pd.to_datetime(·, errors="coerce")` and
   `pd.to_numeric(·, errors="coerce").round(2)`; numbers are modelled as
   exact decimals (mantissa and power-of-ten exponent, the value a JSON
   numeric literal denotes) and `round` as numpy's round-half-to-even at
   two decimals;
 * the three `MERGE` statements (`mergeInsert`, `insertRows`) against a
   store whose per-statement outcome (success, or a raised engine error
   such as an FK violation in a strict schema) is an explicit parameter
   (`Engine`);
 * the transaction boundary of `main`: work is session-local until the
   single `conn.commit()` that follows the three insert loops; an exception
   reaches the `except` handler, which re-raises
   `Exception("Error al guardar los datos en la base de datos: ...")`,
   and the store keeps its previous state (no commit, rollback on exit);
 * the GraphQL query client `consulta_graphql` and the `["allClientes"]`
   style payload extraction performed by `main`.
-/

/-- A cell value: JSON scalars as delivered by the GraphQL endpoint, plus the
canonical values produced by pandas coercion (`date` for `pd.to_datetime`,
`num` for numbers; `null` stands for Python `None` / `NaT` / `NaN`).
A number is an exact decimal `man × 10^(-exp)` — what a JSON numeric
literal denotes (`150.555` is `num 150555 3`); monetary amounts after
rounding always carry `exp = 2` (integer cents). -/
inductive Value where
  | null
  | str (s : String)
  | num (man : Int) (exp : Nat)
  | date (y m d : Nat)
deriving DecidableEq, Repr

/-- The value of a row at column index `i` (rows always have the right
arity in the pipeline, the default is never hit on well-formed data). -/
def keyAt (i : Nat) (row : List Value) : Value := row.getD i Value.null

/-- Model of a pandas `DataFrame`: named columns and rows of cells. -/
structure DataFrame where
  cols : List String
  rows : List (List Value)
deriving DecidableEq, Repr

/-- `pd.DataFrame(records)` on a list of uniform dicts (as built by the
script): the columns are the keys of the records, in insertion order; an
empty list gives an empty frame with no columns. -/
def pdDataFrame (records : List (List (String × Value))) : DataFrame :=
  match records with
  | [] => ⟨[], []⟩
  | r :: _ => ⟨r.map Prod.fst, records.map (fun rec => rec.map Prod.snd)⟩

/-- The pandas error raised on access to a missing column. -/
inductive PdError where
  | keyError (k : String)
deriving DecidableEq, Repr

/-- Keep the first row for each value of column `i`, dropping later rows
whose key was already seen (pandas `drop_duplicates(keep="first")`). -/
def dedupFirstAux (i : Nat) (seen : List Value) : List (List Value) → List (List Value)
  | [] => []
  | r :: rs =>
    if keyAt i r ∈ seen then dedupFirstAux i seen rs
    else r :: dedupFirstAux i (keyAt i r :: seen) rs

/-- `df.drop_duplicates(subset=c)`. pandas returns a copy of an empty frame
before validating `subset`; on a non-empty frame a missing subset column
raises `KeyError`, otherwise rows are deduplicated keeping the first
occurrence in order. -/
def DataFrame.dropDuplicates (df : DataFrame) (c : String) : Except PdError DataFrame :=
  if df.rows.isEmpty then .ok df
  else
    match df.cols.findIdx? (fun x => x == c) with
    | none => .error (.keyError c)
    | some i => .ok ⟨df.cols, dedupFirstAux i [] df.rows⟩

/-- `df.rename(columns=m)`: renames the listed columns, silently ignoring
mapping keys that are not present. -/
def DataFrame.rename (df : DataFrame) (m : List (String × String)) : DataFrame :=
  ⟨df.cols.map (fun c => (m.lookup c).getD c), df.rows⟩

/-- `df[c] = f(df[c])` where `f` is an elementwise coercion: reading the
column raises `KeyError` when it is missing, otherwise every cell of the
column is rewritten by `f`. -/
def DataFrame.coerceCol (df : DataFrame) (c : String) (f : Value → Value) :
    Except PdError DataFrame :=
  match df.cols.findIdx? (fun x => x == c) with
  | none => .error (.keyError c)
  | some i => .ok ⟨df.cols, df.rows.map (fun r => r.set i (f (keyAt i r)))⟩

/-- Split a character list on a separator character (the list analogue of
`str.split(sep)`). -/
def splitOnChar (c : Char) : List Char → List (List Char)
  | [] => [[]]
  | x :: xs =>
    match splitOnChar c xs with
    | [] => if x = c then [[], []] else [[x]]
    | y :: ys => if x = c then [] :: y :: ys else (x :: y) :: ys

/-- Read a non-empty all-digit character list as a natural number. -/
def digitsToNat? (l : List Char) : Option Nat :=
  if l.isEmpty then none
  else if l.all Char.isDigit then
    some (l.foldl (fun acc c => acc * 10 + (c.toNat - 48)) 0)
  else none

/-- Parse a `"YYYY-MM-DD"` date string (the shape the GraphQL endpoint
delivers); anything else is unparsable. -/
def parseDate (s : String) : Option (Nat × Nat × Nat) :=
  match splitOnChar (Char.ofNat 45) s.data with
  | [y, m, d] =>
    match digitsToNat? y, digitsToNat? m, digitsToNat? d with
    | some yn, some mn, some dn =>
      if 1 ≤ mn ∧ mn ≤ 12 ∧ 1 ≤ dn ∧ dn ≤ 31 then some (yn, mn, dn) else none
    | _, _, _ => none
  | _ => none

/-- `pd.to_datetime(·, errors="coerce")`, elementwise: already-canonical
dates pass through, parsable date strings become dates, anything
unparsable becomes `NaT` (modelled as `null`). -/
def toDatetimeCoerce (v : Value) : Value :=
  match v with
  | .date y m d => .date y m d
  | .str s =>
    match parseDate s with
    | some (y, m, d) => .date y m d
    | none => .null
  | _ => .null

/-- Parse an unsigned decimal literal such as `"150.555"` into an exact
decimal `(mantissa, exponent)`. -/
def parseDecimalNN (l : List Char) : Option (Int × Nat) :=
  match splitOnChar (Char.ofNat 46) l with
  | [a] => (digitsToNat? a).map (fun n => ((n : Int), 0))
  | [a, b] =>
    match digitsToNat? a, digitsToNat? b with
    | some an, some bn => some (((an * 10 ^ b.length + bn : Nat) : Int), b.length)
    | _, _ => none
  | _ => none

/-- Parse a possibly signed decimal literal. -/
def parseDecimal (s : String) : Option (Int × Nat) :=
  match s.data with
  | c :: rest =>
    if c = Char.ofNat 45 then (parseDecimalNN rest).map (fun p => (-p.1, p.2))
    else parseDecimalNN s.data
  | [] => none

/-- `pd.to_numeric(·, errors="coerce")`, elementwise: numbers pass
through, decimal strings are parsed, anything unparsable becomes `NaN`
(`none`). -/
def toNumericCoerce (v : Value) : Option (Int × Nat) :=
  match v with
  | .num man exp => some (man, exp)
  | .str s => parseDecimal s
  | _ => none

/-- Round an exact decimal `man × 10^(-exp)` to two decimal places with
numpy's round-half-to-even, returning the integer number of cents (the
mantissa at exponent 2). -/
def roundHalfEvenCents (man : Int) (exp : Nat) : Int :=
  if exp ≤ 2 then man * (10 : Int) ^ (2 - exp)
  else
    let d : Int := (10 : Int) ^ (exp - 2)
    let q := Int.fdiv man d
    let r := man - q * d
    if 2 * r < d then q
    else if d < 2 * r then q + 1
    else if q % 2 = 0 then q else q + 1

/-- The composite `pd.to_numeric(·, errors="coerce").round(2)` on one
cell: unparsable values become `NaN` (`null`), numbers are rounded to two
decimals (stored as integer cents, exponent 2). -/
def coerceMonto (v : Value) : Value :=
  match toNumericCoerce v with
  | some (man, exp) => .num (roundHalfEvenCents man exp) 2
  | none => .null

/-- A raw client record delivered by `allClientes` (`ci`, `nombre`,
`apellido`). -/
structure ClienteRec where
  ci : Value
  nombre : Value
  apellido : Value
deriving DecidableEq, Repr

/-- A raw case record delivered by `allCasos` (`id`, `meteria`). -/
structure CasoRec where
  id : Value
  meteria : Value
deriving DecidableEq, Repr

/-- A raw contract record delivered by `allContratos`: `id`, `fecha`,
`precioBS`, and the embedded sub-objects `cliente { ci }` and `Caso { id }`,
each possibly `null` (modelled as the projected key, or `none`). -/
structure ServicioRec where
  id : Value
  fecha : Value
  precioBS : Value
  cliente : Option Value
  caso : Option Value
deriving DecidableEq, Repr

/-- `pd.DataFrame(data_clientes)` as built in `main`. -/
def clientesDF (raw : List ClienteRec) : DataFrame :=
  pdDataFrame (raw.map (fun c => [("ci", c.ci), ("nombre", c.nombre), ("apellido", c.apellido)]))

/-- `pd.DataFrame(data_casos)` as built in `main`. -/
def casosDF (raw : List CasoRec) : DataFrame :=
  pdDataFrame (raw.map (fun k => [("id", k.id), ("meteria", k.meteria)]))

/-- The flat dict built for one contract by `procesar_datos_servicios`:
`servicio["cliente"]["ci"] if servicio["cliente"] else None`, and likewise
for `Caso`. -/
def servRow (s : ServicioRec) : List Value :=
  [s.id, s.fecha, s.precioBS, s.cliente.getD Value.null, s.caso.getD Value.null]

/-- `procesar_datos_servicios`: flatten the raw contracts into the tabular
frame with columns `nrocontrato, fecha, monto, cicliente, nrocasojuridico`. -/
def procesar_datos_servicios (raw : List ServicioRec) : DataFrame :=
  pdDataFrame (raw.map (fun s =>
    [("nrocontrato", s.id), ("fecha", s.fecha), ("monto", s.precioBS),
     ("cicliente", s.cliente.getD Value.null),
     ("nrocasojuridico", s.caso.getD Value.null)]))

/-- `limpiar_dataframes`: deduplicate each frame by its key column, rename
the case columns, and coerce the contract `fecha` and `monto` columns
(`pd.to_datetime(..., errors="coerce")` and
`pd.to_numeric(..., errors="coerce").round(2)`). Raised `KeyError`s
propagate (the call in `main` sits outside the `try` block). -/
def limpiar_dataframes (dfClientes dfCasos dfServicios : DataFrame) :
    Except PdError (DataFrame × DataFrame × DataFrame) := do
  let dfClientes2 ← dfClientes.dropDuplicates "ci"
  let dfCasos2 ← dfCasos.dropDuplicates "id"
  let dfCasos3 := dfCasos2.rename [("id", "nrocaso"), ("materia", "materia")]
  let dfServicios2 ← dfServicios.dropDuplicates "nrocontrato"
  let dfServicios3 ← dfServicios2.coerceCol "fecha" toDatetimeCoerce
  let dfServicios4 ← dfServicios3.coerceCol "monto" coerceMonto
  pure (dfClientes2, dfCasos3, dfServicios4)

/-- A relational table: a list of rows whose key is the first column
(`ci`, `nrocaso`, `nrocontrato` all come first in their `MERGE`
statements). -/
abbrev Table := List (List Value)

/-- The first stored row with primary key `k` (the key is unique in
practice, see the dedup and merge theorems). -/
def findByKey (t : Table) (k : Value) : Option (List Value) :=
  t.find? (fun r => keyAt 0 r == k)

/-- One `MERGE INTO ... WHEN NOT MATCHED THEN INSERT` statement: insert
the full row only when no stored row has the same key; an already present
key leaves the table untouched (there is no `WHEN MATCHED` branch). -/
def mergeInsert (t : Table) (row : List Value) : Table :=
  if t.any (fun r => keyAt 0 r == keyAt 0 row) then t else t ++ [row]

/-- The three entity tables of the store. -/
structure DB where
  cliente : Table
  casoJuridico : Table
  contratoServicio : Table
deriving DecidableEq, Repr

/-- The three entity types, used to address the insert statements. -/
inductive Entity where
  | cliente
  | casoJuridico
  | contratoServicio
deriving DecidableEq, Repr

/-- The external store engine: for each insert statement, either success
(`none`) or a raised database error with message `some msg` (for example
an FK violation in a strict schema). This is the environment the `try`
block runs against. -/
def Engine := Entity → List Value → Option String

/-- The engine in which every statement succeeds. -/
def noFail : Engine := fun _ _ => none

/-- One insert loop (`for row in df.itertuples(): cursor.execute(...)`):
rows are merged in order; a raised engine error aborts the loop. -/
def insertRows (eng : Engine) (e : Entity) (t : Table) :
    List (List Value) → Except String Table
  | [] => .ok t
  | r :: rs =>
    match eng e r with
    | some msg => .error msg
    | none => insertRows eng e (mergeInsert t r) rs

/-- The `except` handler of `main`:
`raise Exception(f"Error al guardar los datos en la base de datos: {e}")`. -/
def wrapDbError (msg : String) : String :=
  "Error al guardar los datos en la base de datos: " ++ msg

deriving instance DecidableEq for Except

/-- The observable outcome of the persistence phase of one run: the
result (`ok` or the re-raised wrapped exception), the state the store
exposes after the run, and how many times `conn.commit()` executed. -/
structure RunOutcome where
  result : Except String Unit
  committed : DB
  commits : Nat
deriving DecidableEq, Repr

/-- The `try` block of `main`: the three insert loops run in order
(cliente, casoJuridico, contratoServicio) inside one transaction; work is
session-local until the single `conn.commit()` after the third loop. An
exception skips the commit, so the store keeps its previous state (the
connection context manager rolls the transaction back), and the `except`
handler re-raises the wrapped error. -/
def persistRun (eng : Engine) (db : DB) (dfC dfK dfS : DataFrame) : RunOutcome :=
  match insertRows eng .cliente db.cliente dfC.rows with
  | .error m => ⟨.error (wrapDbError m), db, 0⟩
  | .ok tc =>
    match insertRows eng .casoJuridico db.casoJuridico dfK.rows with
    | .error m => ⟨.error (wrapDbError m), db, 0⟩
    | .ok tk =>
      match insertRows eng .contratoServicio db.contratoServicio dfS.rows with
      | .error m => ⟨.error (wrapDbError m), db, 0⟩
      | .ok ts => ⟨.ok (), ⟨tc, tk, ts⟩, 1⟩

/-- One full run of `main` from the raw fetched records onward: build the
three dataframes, clean them (a pandas `KeyError` here propagates
unwrapped, before any database work), then persist. -/
def mainRun (eng : Engine) (rawC : List ClienteRec) (rawK : List CasoRec)
    (rawS : List ServicioRec) (db : DB) : Except PdError RunOutcome :=
  match limpiar_dataframes (clientesDF rawC) (casosDF rawK) (procesar_datos_servicios rawS) with
  | .error e => .error e
  | .ok (dfC, dfK, dfS) => .ok (persistRun eng db dfC dfK dfS)

/-- The store state visible after a run: the committed state on success,
the unchanged previous state when the run aborted (nothing committed). -/
def visibleAfter (eng : Engine) (rawC : List ClienteRec) (rawK : List CasoRec)
    (rawS : List ServicioRec) (db : DB) : DB :=
  match mainRun eng rawC rawK rawS db with
  | .error _ => db
  | .ok out => out.committed

/-- A sequence of runs, each with its own engine behaviour and source
snapshot, folded over the store. -/
def runSeq (runs : List (Engine × List ClienteRec × List CasoRec × List ServicioRec))
    (db : DB) : DB :=
  runs.foldl (fun d run => visibleAfter run.1 run.2.1 run.2.2.1 run.2.2.2 d) db

/-- The combined effect of the two coercion columns of
`limpiar_dataframes` on one surviving contract row: `fecha` (index 1) is
coerced by `toDatetimeCoerce`, then `monto` (index 2) by `coerceMonto`. -/
def coerceServRow (r : List Value) : List Value :=
  let r1 := r.set 1 (toDatetimeCoerce (keyAt 1 r))
  r1.set 2 (coerceMonto (keyAt 2 r1))

/-- A JSON value, for the query client model. -/
inductive Json where
  | null
  | bool (b : Bool)
  | str (s : String)
  | num (q : Rat)
  | obj (fields : List (String × Json))
  | arr (elems : List Json)

/-- A Python error raised while fetching: `raised` is an explicit
`raise Exception(msg)`, the other two are unhandled interpreter errors. -/
inductive PyError where
  | raised (msg : String)
  | keyError (k : String)
  | typeError (msg : String)
deriving DecidableEq, Repr

/-- An HTTP response from the GraphQL endpoint: the status code and the
parsed JSON object body. -/
structure HttpResponse where
  statusCode : Nat
  body : List (String × Json)

/-- `consulta_graphql`: raise the protocol error exactly when the status
code is not 200, otherwise return `response.json()["data"]` — a missing
`"data"` key is an unhandled `KeyError`, a `null` value is returned
as-is. -/
def consulta_graphql (resp : HttpResponse) : Except PyError Json :=
  if resp.statusCode ≠ 200 then
    .error (.raised ("Error al consultar GraphQL (" ++ toString resp.statusCode ++ ")"))
  else
    match resp.body.lookup "data" with
    | some v => .ok v
    | none => .error (.keyError "data")

/-- Python subscripting `v["k"]` on the payload, as `main` does with
`consulta_graphql(...)["allClientes"]`: indexing an object looks the key
up (`KeyError` when missing), indexing `None` or a non-object raises
`TypeError`. -/
def jsonIndex (v : Json) (k : String) : Except PyError Json :=
  match v with
  | .obj fields =>
    match fields.lookup k with
    | some w => .ok w
    | none => .error (.keyError k)
  | .null => .error (.typeError "NoneType object is not subscriptable")
  | _ => .error (.typeError "value is not subscriptable")

/-- The fetch performed by `main` for one entity list:
`consulta_graphql(query)[key]`. -/
def fetchField (resp : HttpResponse) (k : String) : Except PyError Json :=
  match consulta_graphql resp with
  | .ok v => jsonIndex v k
  | .error e => .error e

/-- An engine whose `cliente` insert statements all fail with a fixed
store error message (e.g. the strict-schema scenario of the spec). -/
def engFailCliente : Engine := fun e _ =>
  if e = Entity.cliente then some "FOREIGN KEY constraint failure" else none

/-- An engine whose `contratoServicio` insert statements all fail with
the same fixed store error message. -/
def engFailServicio : Engine := fun e _ =>
  if e = Entity.contratoServicio then some "FOREIGN KEY constraint failure" else none

/-! ### Concrete fixtures used by witnesses and counterexamples -/

/-- Test fixture: the scenario client `{id:"A1", name:"Ana", surname:"Ruiz"}`. -/
def wCliAna : ClienteRec := ⟨.str "A1", .str "Ana", .str "Ruiz"⟩

/-- Test fixture: a later source record for the same client `A1` with a
changed name. -/
def wCliEva : ClienteRec := ⟨.str "A1", .str "Eva", .str "Paz"⟩

/-- Test fixture: the scenario case `{id:"C1", category:"civil"}`. -/
def wCaso : CasoRec := ⟨.str "C1", .str "civil"⟩

/-- Test fixture: the scenario contract `{id:"K1", date:"2024-03-01",
amount:150.555, client:{id:"A1"}, case:{id:"C1"}}`; the amount `150.555`
is the exact decimal `num 150555 3`. -/
def wServ : ServicioRec :=
  ⟨.str "K1", .str "2024-03-01", .num 150555 3, some (.str "A1"), some (.str "C1")⟩

/-- Test fixture: a contract whose date and amount are both unparsable and
whose client/case references are absent. -/
def wServBad : ServicioRec := ⟨.str "K2", .str "pronto", .str "gratis", none, none⟩

/-- Test fixture: a well-formed contract with absent client/case
references. -/
def wServNulls : ServicioRec := ⟨.str "K3", .str "2024-05-10", .num 20 0, none, none⟩

/-- Test fixture: the empty store. -/
def emptyDB : DB := ⟨[], [], []⟩

/-- Test fixture: a store already holding client `A1` with the first-seen
name `Ana Ruiz`. -/
def dbAna : DB := ⟨[[.str "A1", .str "Ana", .str "Ruiz"]], [], []⟩

/-- Test fixture: the outcome of persisting `wServBad` alone into the
empty store. -/
def wOutBad : RunOutcome :=
  ⟨.ok (), ⟨[], [], [[.str "K2", .null, .null, .null, .null]]⟩, 1⟩

/-- Test fixture: the outcome of persisting `wServNulls` alone into the
empty store. -/
def wOutNulls : RunOutcome :=
  ⟨.ok (), ⟨[], [], [[.str "K3", .date 2024 5 10, .num 2000 2, .null, .null]]⟩, 1⟩

/-- Test fixture: the contract row of `wServNulls` after coercion. -/
def wRowNulls : List Value := [.str "K3", .date 2024 5 10, .num 2000 2, .null, .null]

/-- Test fixture: the contract row of `wServ` after coercion (the amount
150.555 rounded to 150.56, stored as 15056 cents). -/
def wRowK1 : List Value := [.str "K1", .date 2024 3 1, .num 15056 2, .str "A1", .str "C1"]

/-- Test fixture: the run outcome of a run that failed before its commit. -/
def wOutFail : RunOutcome :=
  ⟨.error (wrapDbError "FOREIGN KEY constraint failure"), ⟨[], [], []⟩, 0⟩

/-- Test fixture: the deduplicated client frame for `[wCliAna, wCliEva]`. -/
def wDfDedup : DataFrame :=
  ⟨["ci", "nombre", "apellido"], [[.str "A1", .str "Ana", .str "Ruiz"]]⟩

/-- Test fixture: a response with a non-success status. -/
def respErr500 : HttpResponse := ⟨500, []⟩

/-- Test fixture: a 200 response whose JSON body has no `"data"` key. -/
def respNoData : HttpResponse := ⟨200, [("ok", Json.bool true)]⟩

/-- Test fixture: a 200 GraphQL error response with a `null` `"data"`
value. -/
def respNullData : HttpResponse := ⟨200, [("data", Json.null), ("errors", Json.arr [])]⟩

/-! ### Lemmas about the key lookup and the merge-insert statements -/

theorem findByKey_singleton (row : List Value) (k : Value) :
    findByKey [row] k = if keyAt 0 row == k then some row else none := by
  cases hk : keyAt 0 row == k <;> simp [findByKey, List.find?, hk]

theorem findByKey_append_of_none (t : Table) (row : List Value) (k : Value)
    (h : findByKey t k = none) :
    findByKey (t ++ [row]) k = if keyAt 0 row == k then some row else none := by
  rw [findByKey, List.find?_append]
  rw [findByKey] at h
  rw [h, Option.none_or]
  exact findByKey_singleton row k

theorem findByKey_append_of_some (t : Table) (l : Table) (k : Value) (r : List Value)
    (h : findByKey t k = some r) :
    findByKey (t ++ l) k = some r := by
  rw [findByKey, List.find?_append]
  rw [findByKey] at h
  rw [h, Option.or_some]

theorem mergeInsert_of_present (t : Table) (row : List Value)
    (h : (findByKey t (keyAt 0 row)).isSome) : mergeInsert t row = t := by
  obtain ⟨r, hr⟩ := Option.isSome_iff_exists.mp h
  rw [findByKey] at hr
  have hmem : r ∈ t := List.mem_of_find?_eq_some hr
  have hpr := List.find?_some hr
  have hany : t.any (fun x => keyAt 0 x == keyAt 0 row) = true :=
    List.any_eq_true.mpr ⟨r, hmem, hpr⟩
  simp [mergeInsert, hany]

theorem mergeInsert_of_absent (t : Table) (row : List Value)
    (h : findByKey t (keyAt 0 row) = none) : mergeInsert t row = t ++ [row] := by
  rw [findByKey, List.find?_eq_none] at h
  have hany : t.any (fun x => keyAt 0 x == keyAt 0 row) = false := by
    simp only [List.any_eq_false]
    intro x hx
    exact h x hx
  simp [mergeInsert, hany]

theorem findByKey_mergeInsert_of_some (t : Table) (row : List Value) (k : Value)
    (r : List Value) (h : findByKey t k = some r) :
    findByKey (mergeInsert t row) k = some r := by
  unfold mergeInsert
  by_cases hany : t.any (fun x => keyAt 0 x == keyAt 0 row) = true
  · simp only [hany, if_true]
    exact h
  · simp only [Bool.not_eq_true] at hany
    simp only [hany, Bool.false_eq_true, if_false]
    exact findByKey_append_of_some t [row] k r h

theorem findByKey_mergeInsert_self (t : Table) (row : List Value) :
    (findByKey (mergeInsert t row) (keyAt 0 row)).isSome := by
  cases h : findByKey t (keyAt 0 row) with
  | some r =>
    rw [findByKey_mergeInsert_of_some t row _ r h]
    rfl
  | none =>
    rw [mergeInsert_of_absent t row h, findByKey_append_of_none t row _ h]
    simp

theorem findByKey_mergeInsert_of_none (t : Table) (row : List Value) (k : Value)
    (hn : findByKey t k = none) (hne : (keyAt 0 row == k) = false) :
    findByKey (mergeInsert t row) k = none := by
  unfold mergeInsert
  by_cases hany : t.any (fun x => keyAt 0 x == keyAt 0 row) = true
  · simp only [hany, if_true]
    exact hn
  · simp only [Bool.not_eq_true] at hany
    simp only [hany, Bool.false_eq_true, if_false]
    rw [findByKey_append_of_none t row k hn, hne]
    simp

theorem insertRows_ok_preserves (eng : Engine) (e : Entity) (rows : List (List Value))
    (t t' : Table) (k : Value) (r : List Value)
    (h : insertRows eng e t rows = .ok t') (hk : findByKey t k = some r) :
    findByKey t' k = some r := by
  induction rows generalizing t with
  | nil =>
    simp only [insertRows] at h
    cases h
    exact hk
  | cons row rows ih =>
    simp only [insertRows] at h
    cases heng : eng e row with
    | some m => rw [heng] at h; cases h
    | none =>
      rw [heng] at h
      exact ih (mergeInsert t row) h (findByKey_mergeInsert_of_some t row k r hk)

theorem insertRows_ok_isSome (eng : Engine) (e : Entity) (rows : List (List Value))
    (t t' : Table) (k : Value)
    (h : insertRows eng e t rows = .ok t') (hk : (findByKey t k).isSome) :
    (findByKey t' k).isSome := by
  obtain ⟨r, hr⟩ := Option.isSome_iff_exists.mp hk
  rw [insertRows_ok_preserves eng e rows t t' k r h hr]
  rfl

theorem insertRows_keys_present (eng : Engine) (e : Entity) (rows : List (List Value))
    (t t' : Table)
    (h : insertRows eng e t rows = .ok t') :
    ∀ row ∈ rows, (findByKey t' (keyAt 0 row)).isSome := by
  induction rows generalizing t with
  | nil => intro row hrow; cases hrow
  | cons x rows ih =>
    intro row hrow
    simp only [insertRows] at h
    cases heng : eng e x with
    | some m => rw [heng] at h; cases h
    | none =>
      rw [heng] at h
      rcases List.mem_cons.mp hrow with hrx | hrmem
      · subst hrx
        exact insertRows_ok_isSome eng e rows _ t' _ h (findByKey_mergeInsert_self t row)
      · exact ih (mergeInsert t x) h row hrmem

theorem insertRows_noFail_eq (e : Entity) (rows : List (List Value)) (t : Table) :
    insertRows noFail e t rows = .ok (rows.foldl mergeInsert t) := by
  induction rows generalizing t with
  | nil => rfl
  | cons r rows ih =>
    simp only [insertRows, noFail, List.foldl_cons]
    exact ih (mergeInsert t r)

theorem insertRows_of_all_present (e : Entity) (rows : List (List Value)) (t : Table)
    (h : ∀ row ∈ rows, (findByKey t (keyAt 0 row)).isSome) :
    insertRows noFail e t rows = .ok t := by
  induction rows with
  | nil => rfl
  | cons r rows ih =>
    simp only [insertRows, noFail]
    rw [mergeInsert_of_present t r (h r (by simp))]
    exact ih (fun row hrow => h row (List.mem_cons_of_mem _ hrow))

theorem insertRows_error_source (eng : Engine) (e : Entity) (rows : List (List Value))
    (t : Table) (m : String)
    (h : insertRows eng e t rows = .error m) :
    ∃ row ∈ rows, eng e row = some m := by
  induction rows generalizing t with
  | nil => simp [insertRows] at h
  | cons r rows ih =>
    simp only [insertRows] at h
    cases heng : eng e r with
    | some m' =>
      rw [heng] at h
      cases h
      exact ⟨r, by simp, heng⟩
    | none =>
      rw [heng] at h
      obtain ⟨row, hrow, hfail⟩ := ih (mergeInsert t r) h
      exact ⟨row, List.mem_cons_of_mem _ hrow, hfail⟩

theorem insertRows_fresh_insert (eng : Engine) (e : Entity) (rows : List (List Value))
    (t t' : Table) (k : Value) (row : List Value)
    (h : insertRows eng e t rows = .ok t') (hfresh : findByKey t k = none)
    (hfind : rows.find? (fun r => keyAt 0 r == k) = some row) :
    findByKey t' k = some row := by
  induction rows generalizing t with
  | nil => simp at hfind
  | cons x rows ih =>
    simp only [insertRows] at h
    cases heng : eng e x with
    | some m => rw [heng] at h; cases h
    | none =>
      rw [heng] at h
      cases hx : keyAt 0 x == k with
      | true =>
        simp only [List.find?, hx] at hfind
        injection hfind with hxr
        subst hxr
        have hkx : keyAt 0 x = k := eq_of_beq hx
        have habs : findByKey t (keyAt 0 x) = none := by rw [hkx]; exact hfresh
        have hmi : findByKey (mergeInsert t x) k = some x := by
          rw [mergeInsert_of_absent t x habs, findByKey_append_of_none t x k hfresh, hx]
          simp
        exact insertRows_ok_preserves eng e rows _ t' k x h hmi
      | false =>
        simp only [List.find?, hx] at hfind
        exact ih (mergeInsert t x) h (findByKey_mergeInsert_of_none t x k hfresh hx) hfind

/-! ### Lemmas about first-occurrence deduplication -/

theorem dedupFirstAux_sublist (i : Nat) (rows : List (List Value)) :
    ∀ seen, (dedupFirstAux i seen rows).Sublist rows := by
  induction rows with
  | nil => intro seen; simp [dedupFirstAux]
  | cons r rs ih =>
    intro seen
    simp only [dedupFirstAux]
    by_cases hmem : keyAt i r ∈ seen
    · rw [if_pos hmem]
      exact (ih seen).cons r
    · rw [if_neg hmem]
      exact (ih _).cons₂ r

theorem dedupFirstAux_not_seen (i : Nat) (rows : List (List Value)) :
    ∀ seen, ∀ r ∈ dedupFirstAux i seen rows, keyAt i r ∉ seen := by
  induction rows with
  | nil => intro seen r hr; simp [dedupFirstAux] at hr
  | cons x rs ih =>
    intro seen r hr
    simp only [dedupFirstAux] at hr
    by_cases hmem : keyAt i x ∈ seen
    · rw [if_pos hmem] at hr
      exact ih seen r hr
    · rw [if_neg hmem] at hr
      rcases List.mem_cons.mp hr with hrx | hrtail
      · subst hrx
        exact hmem
      · have hmore := ih _ r hrtail
        exact fun hseen => hmore (List.mem_cons_of_mem _ hseen)

theorem dedupFirstAux_pairwise (i : Nat) (rows : List (List Value)) :
    ∀ seen, (dedupFirstAux i seen rows).Pairwise (fun a b => keyAt i a ≠ keyAt i b) := by
  induction rows with
  | nil => intro seen; simp [dedupFirstAux]
  | cons x rs ih =>
    intro seen
    simp only [dedupFirstAux]
    by_cases hmem : keyAt i x ∈ seen
    · rw [if_pos hmem]
      exact ih seen
    · rw [if_neg hmem]
      refine List.Pairwise.cons ?_ (ih _)
      intro b hb hcontra
      exact dedupFirstAux_not_seen i rs _ b hb (hcontra ▸ List.mem_cons_self _ _)

theorem dedupFirstAux_find? (i : Nat) (rows : List (List Value)) :
    ∀ seen k, k ∉ seen →
      (dedupFirstAux i seen rows).find? (fun r => keyAt i r == k) =
        rows.find? (fun r => keyAt i r == k) := by
  induction rows with
  | nil => intro seen k hk; rfl
  | cons x rs ih =>
    intro seen k hk
    simp only [dedupFirstAux]
    cases hx : keyAt i x == k with
    | true =>
      have hxk : keyAt i x = k := eq_of_beq hx
      have hnot : keyAt i x ∉ seen := by rw [hxk]; exact hk
      rw [if_neg hnot]
      simp [List.find?, hx]
    | false =>
      by_cases hmem : keyAt i x ∈ seen
      · rw [if_pos hmem, ih seen k hk]
        simp [List.find?, hx]
      · rw [if_neg hmem]
        have hk2 : k ∉ keyAt i x :: seen := by
          intro hc
          rcases List.mem_cons.mp hc with h1 | h2
          · subst h1
            simp at hx
          · exact hk h2
        simp only [List.find?, hx]
        exact ih _ k hk2

/-! ### Lemmas about the dataframes built by the pipeline -/

theorem keyAt_set_of_ne (r : List Value) (i j : Nat) (v : Value) (h : i ≠ j) :
    keyAt j (r.set i v) = keyAt j r := by
  simp [keyAt, List.getD, List.getElem?_set_ne h]

theorem keyAt_zero_coerceServRow (r : List Value) :
    keyAt 0 (coerceServRow r) = keyAt 0 r := by
  simp only [coerceServRow]
  rw [keyAt_set_of_ne _ _ _ _ (by decide), keyAt_set_of_ne _ _ _ _ (by decide)]

theorem clientesDF_rows (raw : List ClienteRec) :
    (clientesDF raw).rows = raw.map (fun c => [c.ci, c.nombre, c.apellido]) := by
  cases raw with
  | nil => rfl
  | cons c cs => simp [clientesDF, pdDataFrame, List.map_map, Function.comp]

theorem casosDF_rows (raw : List CasoRec) :
    (casosDF raw).rows = raw.map (fun x => [x.id, x.meteria]) := by
  cases raw with
  | nil => rfl
  | cons x xs => simp [casosDF, pdDataFrame, List.map_map, Function.comp]

theorem procesar_rows (raw : List ServicioRec) :
    (procesar_datos_servicios raw).rows = raw.map servRow := by
  cases raw with
  | nil => rfl
  | cons s rest =>
    simp [procesar_datos_servicios, pdDataFrame, List.map_map, Function.comp, servRow]

theorem limpiar_eq_of_cons (rawC : List ClienteRec) (rawK : List CasoRec)
    (s : ServicioRec) (rest : List ServicioRec) :
    ∃ dfC dfK dfS,
      limpiar_dataframes (clientesDF rawC) (casosDF rawK)
        (procesar_datos_servicios (s :: rest)) = .ok (dfC, dfK, dfS) ∧
      dfC.rows = dedupFirstAux 0 [] ((clientesDF rawC).rows) ∧
      dfK.rows = dedupFirstAux 0 [] ((casosDF rawK).rows) ∧
      dfS.rows = (dedupFirstAux 0 []
        ((procesar_datos_servicios (s :: rest)).rows)).map coerceServRow := by
  cases rawC <;> cases rawK <;>
    exact ⟨_, _, _, rfl, rfl, rfl, by
      dsimp only
      rw [List.map_map]
      exact List.map_congr_left (fun r _ => rfl)⟩

/-! ### Lemmas about the persistence phase and the visible store state -/

theorem persistRun_noFail_eq (db : DB) (dfC dfK dfS : DataFrame) :
    persistRun noFail db dfC dfK dfS =
      ⟨.ok (), ⟨dfC.rows.foldl mergeInsert db.cliente,
                dfK.rows.foldl mergeInsert db.casoJuridico,
                dfS.rows.foldl mergeInsert db.contratoServicio⟩, 1⟩ := by
  simp only [persistRun, insertRows_noFail_eq]

theorem persistRun_committed_preserves (eng : Engine) (db : DB) (dfC dfK dfS : DataFrame) :
    (∀ k r, findByKey db.cliente k = some r →
      findByKey (persistRun eng db dfC dfK dfS).committed.cliente k = some r) ∧
    (∀ k r, findByKey db.casoJuridico k = some r →
      findByKey (persistRun eng db dfC dfK dfS).committed.casoJuridico k = some r) ∧
    (∀ k r, findByKey db.contratoServicio k = some r →
      findByKey (persistRun eng db dfC dfK dfS).committed.contratoServicio k = some r) := by
  unfold persistRun
  cases h1 : insertRows eng .cliente db.cliente dfC.rows with
  | error m => exact ⟨fun k r h => h, fun k r h => h, fun k r h => h⟩
  | ok tc =>
    cases h2 : insertRows eng .casoJuridico db.casoJuridico dfK.rows with
    | error m => exact ⟨fun k r h => h, fun k r h => h, fun k r h => h⟩
    | ok tk =>
      cases h3 : insertRows eng .contratoServicio db.contratoServicio dfS.rows with
      | error m => exact ⟨fun k r h => h, fun k r h => h, fun k r h => h⟩
      | ok ts =>
        exact ⟨fun k r h => insertRows_ok_preserves eng _ _ _ _ _ _ h1 h,
               fun k r h => insertRows_ok_preserves eng _ _ _ _ _ _ h2 h,
               fun k r h => insertRows_ok_preserves eng _ _ _ _ _ _ h3 h⟩

theorem visibleAfter_preserves (eng : Engine) (rawC : List ClienteRec) (rawK : List CasoRec)
    (rawS : List ServicioRec) (db : DB) :
    (∀ k r, findByKey db.cliente k = some r →
      findByKey (visibleAfter eng rawC rawK rawS db).cliente k = some r) ∧
    (∀ k r, findByKey db.casoJuridico k = some r →
      findByKey (visibleAfter eng rawC rawK rawS db).casoJuridico k = some r) ∧
    (∀ k r, findByKey db.contratoServicio k = some r →
      findByKey (visibleAfter eng rawC rawK rawS db).contratoServicio k = some r) := by
  unfold visibleAfter mainRun
  cases hlim : limpiar_dataframes (clientesDF rawC) (casosDF rawK)
      (procesar_datos_servicios rawS) with
  | error e => exact ⟨fun k r h => h, fun k r h => h, fun k r h => h⟩
  | ok dfs =>
    obtain ⟨dfC, dfK, dfS⟩ := dfs
    exact persistRun_committed_preserves eng db dfC dfK dfS

theorem foldl_mergeInsert_idem (rows : List (List Value)) (t : Table) :
    rows.foldl mergeInsert (rows.foldl mergeInsert t) = rows.foldl mergeInsert t := by
  have h1 : insertRows noFail .cliente t rows = .ok (rows.foldl mergeInsert t) :=
    insertRows_noFail_eq _ rows t
  have hpres := insertRows_keys_present noFail .cliente rows t _ h1
  have h2 := insertRows_of_all_present .cliente rows (rows.foldl mergeInsert t) hpres
  rw [insertRows_noFail_eq] at h2
  exact Except.ok.inj h2

theorem visibleAfter_noFail_idem (rawC : List ClienteRec) (rawK : List CasoRec)
    (rawS : List ServicioRec) (db : DB) :
    visibleAfter noFail rawC rawK rawS (visibleAfter noFail rawC rawK rawS db) =
      visibleAfter noFail rawC rawK rawS db := by
  unfold visibleAfter mainRun
  cases hlim : limpiar_dataframes (clientesDF rawC) (casosDF rawK)
      (procesar_datos_servicios rawS) with
  | error e => rfl
  | ok dfs =>
    obtain ⟨dfC, dfK, dfS⟩ := dfs
    show (persistRun noFail (persistRun noFail db dfC dfK dfS).committed dfC dfK dfS).committed
      = (persistRun noFail db dfC dfK dfS).committed
    rw [persistRun_noFail_eq, persistRun_noFail_eq]
    simp only [DB.mk.injEq]
    exact ⟨foldl_mergeInsert_idem _ _, foldl_mergeInsert_idem _ _, foldl_mergeInsert_idem _ _⟩

theorem mainRun_noFail_found (rawC : List ClienteRec) (rawK : List CasoRec)
    (rawS : List ServicioRec) (db : DB) (s : ServicioRec)
    (hfirst : rawS.find? (fun x => x.id == s.id) = some s)
    (hfresh : findByKey db.contratoServicio s.id = none) :
    ∃ out, mainRun noFail rawC rawK rawS db = .ok out ∧ out.result = .ok () ∧
      out.commits = 1 ∧
      findByKey out.committed.contratoServicio s.id = some (coerceServRow (servRow s)) := by
  cases rawS with
  | nil => simp [List.find?] at hfirst
  | cons s0 rest =>
    obtain ⟨dfC, dfK, dfS, hlim, hC, hK, hS⟩ := limpiar_eq_of_cons rawC rawK s0 rest
    have hmain : mainRun noFail rawC rawK (s0 :: rest) db =
        .ok (persistRun noFail db dfC dfK dfS) := by
      unfold mainRun
      rw [hlim]
    rw [persistRun_noFail_eq] at hmain
    refine ⟨_, hmain, rfl, rfl, ?_⟩
    have hins : insertRows noFail .contratoServicio db.contratoServicio dfS.rows =
        .ok (dfS.rows.foldl mergeInsert db.contratoServicio) :=
      insertRows_noFail_eq _ _ _
    refine insertRows_fresh_insert noFail .contratoServicio dfS.rows db.contratoServicio
      _ s.id (coerceServRow (servRow s)) hins hfresh ?_
    rw [hS, procesar_rows]
    rw [List.find?_map]
    have hp1 : ((fun r => keyAt 0 r == s.id) ∘ coerceServRow) = (fun r => keyAt 0 r == s.id) := by
      funext r
      simp [Function.comp, keyAt_zero_coerceServRow]
    rw [hp1, dedupFirstAux_find? 0 _ [] s.id (List.not_mem_nil _), List.find?_map]
    have hp2 : ((fun r => keyAt 0 r == s.id) ∘ servRow) = (fun x => x.id == s.id) := by
      funext x
      rfl
    rw [hp2, hfirst]
    rfl

/-! ### Remaining helper lemmas -/

theorem limpiar_empty_servicios (rawC : List ClienteRec) (rawK : List CasoRec) :
    limpiar_dataframes (clientesDF rawC) (casosDF rawK) (procesar_datos_servicios []) =
      .error (.keyError "fecha") := by
  cases rawC <;> cases rawK <;> rfl

/-! ### The claims -/

/-- C1: for every entity table and every sequence of runs (any engine
behaviour, any source snapshots), a row whose primary key is already
present in the store is never updated or deleted: the key still maps to
exactly the same stored row after all the runs, even when later source
records carry different values for that key. -/
theorem C1_insert_only
    (runs : List (Engine × List ClienteRec × List CasoRec × List ServicioRec)) (db : DB) :
    (∀ k r, findByKey db.cliente k = some r →
      findByKey (runSeq runs db).cliente k = some r) ∧
    (∀ k r, findByKey db.casoJuridico k = some r →
      findByKey (runSeq runs db).casoJuridico k = some r) ∧
    (∀ k r, findByKey db.contratoServicio k = some r →
      findByKey (runSeq runs db).contratoServicio k = some r) := by
  induction runs generalizing db with
  | nil => exact ⟨fun k r h => h, fun k r h => h, fun k r h => h⟩
  | cons run rest ih =>
    obtain ⟨hc, hk, hs⟩ := visibleAfter_preserves run.1 run.2.1 run.2.2.1 run.2.2.2 db
    obtain ⟨ic, ik, iv⟩ := ih (visibleAfter run.1 run.2.1 run.2.2.1 run.2.2.2 db)
    exact ⟨fun k r h => ic k r (hc k r h), fun k r h => ik k r (hk k r h),
           fun k r h => iv k r (hs k r h)⟩

/-- C1 witness: a store holding client `A1 = Ana Ruiz` keeps exactly that
row after a successful run whose source carries `A1 = Eva Paz`. -/
theorem C1_insert_only_witness :
    findByKey (runSeq [(noFail, [wCliEva], [wCaso], [wServ])] dbAna).cliente
      (Value.str "A1") = some [Value.str "A1", Value.str "Ana", Value.str "Ruiz"] :=
  (C1_insert_only [(noFail, [wCliEva], [wCaso], [wServ])] dbAna).1
    (Value.str "A1") [Value.str "A1", Value.str "Ana", Value.str "Ruiz"] rfl

/-- C2: a run is all-or-nothing at the persistence layer: when the run
reaches the database phase, `conn.commit()` executes exactly once iff all
three reconciliation steps succeed, and if any insert step fails the
store state visible afterwards is exactly the previous state — no rows
from any of the three steps of that run are visible and nothing was
committed. -/
theorem C2_all_or_nothing (eng : Engine) (rawC : List ClienteRec) (rawK : List CasoRec)
    (rawS : List ServicioRec) (db : DB) (out : RunOutcome)
    (h : mainRun eng rawC rawK rawS db = .ok out) :
    (out.result = .ok () ↔ out.commits = 1) ∧
    (∀ m, out.result = .error m → out.committed = db ∧ out.commits = 0) := by
  unfold mainRun at h
  cases hlim : limpiar_dataframes (clientesDF rawC) (casosDF rawK)
      (procesar_datos_servicios rawS) with
  | error e =>
    rw [hlim] at h
    simp at h
  | ok dfs =>
    obtain ⟨dfC, dfK, dfS⟩ := dfs
    rw [hlim] at h
    have hout : out = persistRun eng db dfC dfK dfS := (Except.ok.inj h).symm
    subst hout
    unfold persistRun
    cases h1 : insertRows eng .cliente db.cliente dfC.rows with
    | error m1 => exact ⟨by simp, fun m hm => ⟨rfl, rfl⟩⟩
    | ok tc =>
      cases h2 : insertRows eng .casoJuridico db.casoJuridico dfK.rows with
      | error m2 => exact ⟨by simp, fun m hm => ⟨rfl, rfl⟩⟩
      | ok tk =>
        cases h3 : insertRows eng .contratoServicio db.contratoServicio dfS.rows with
        | error m3 => exact ⟨by simp, fun m hm => ⟨rfl, rfl⟩⟩
        | ok ts => exact ⟨by simp, fun m hm => absurd hm (by simp)⟩

/-- C2 witness: a run in which the ServiceContract step fails after the
Client and Case steps succeeded leaves the empty store empty and commits
nothing. -/
theorem C2_all_or_nothing_witness : wOutFail.committed = emptyDB ∧ wOutFail.commits = 0 :=
  (C2_all_or_nothing engFailServicio [wCliAna] [wCaso] [wServ] emptyDB wOutFail rfl).2
    (wrapDbError "FOREIGN KEY constraint failure") rfl

/-- C3: running the complete pipeline twice against an unchanged source
(with a store engine that accepts every statement) is idempotent: after
the second run each of the three tables has the same row count as after
the first run. -/
theorem C3_idempotent (rawC : List ClienteRec) (rawK : List CasoRec)
    (rawS : List ServicioRec) (db : DB) :
    (visibleAfter noFail rawC rawK rawS (visibleAfter noFail rawC rawK rawS db)).cliente.length =
      (visibleAfter noFail rawC rawK rawS db).cliente.length ∧
    (visibleAfter noFail rawC rawK rawS (visibleAfter noFail rawC rawK rawS db)).casoJuridico.length =
      (visibleAfter noFail rawC rawK rawS db).casoJuridico.length ∧
    (visibleAfter noFail rawC rawK rawS (visibleAfter noFail rawC rawK rawS db)).contratoServicio.length =
      (visibleAfter noFail rawC rawK rawS db).contratoServicio.length := by
  rw [visibleAfter_noFail_idem]
  exact ⟨rfl, rfl, rfl⟩

/-- C4 counterexample: with zero ServiceContract source records (and a
well-formed client and case), the normalizer does not yield an empty
sequence — `limpiar_dataframes` raises `KeyError: 'fecha'`, because the
empty contracts frame has no columns. -/
theorem C4_counterexample :
    limpiar_dataframes (clientesDF [wCliAna]) (casosDF [wCaso])
      (procesar_datos_servicios []) = .error (.keyError "fecha") := rfl

/-- C4 amended: zero source records for Client or Case yield an empty
frame and no error (the run proceeds with nothing to insert for that
entity), but zero ServiceContract records make the normalization raise a
`KeyError` for the missing `fecha` column, aborting the run. -/
theorem C4_amended (rawC : List ClienteRec) (rawK : List CasoRec) (rawS : List ServicioRec)
    (s : ServicioRec) (rest : List ServicioRec) (hS : rawS = s :: rest) :
    (∃ dfC dfK dfS, limpiar_dataframes (clientesDF []) (casosDF rawK)
        (procesar_datos_servicios rawS) = .ok (dfC, dfK, dfS) ∧ dfC.rows = []) ∧
    (∃ dfC dfK dfS, limpiar_dataframes (clientesDF rawC) (casosDF [])
        (procesar_datos_servicios rawS) = .ok (dfC, dfK, dfS) ∧ dfK.rows = []) ∧
    limpiar_dataframes (clientesDF rawC) (casosDF rawK) (procesar_datos_servicios []) =
      .error (.keyError "fecha") := by
  subst hS
  refine ⟨?_, ?_, limpiar_empty_servicios rawC rawK⟩
  · obtain ⟨dfC, dfK, dfS, hlim, hC, hK, hSr⟩ := limpiar_eq_of_cons [] rawK s rest
    exact ⟨dfC, dfK, dfS, hlim, by rw [hC]; rfl⟩
  · obtain ⟨dfC, dfK, dfS, hlim, hC, hK, hSr⟩ := limpiar_eq_of_cons rawC [] s rest
    exact ⟨dfC, dfK, dfS, hlim, by rw [hK]; rfl⟩

/-- C4 witness: a concrete run with zero contracts raises `KeyError:
'fecha'` even though clients and cases are present. -/
theorem C4_amended_witness :
    limpiar_dataframes (clientesDF [wCliEva]) (casosDF [wCaso])
      (procesar_datos_servicios []) = .error (.keyError "fecha") :=
  (C4_amended [wCliEva] [wCaso] [wServ] wServ [] rfl).2.2

/-- C5: `drop_duplicates` on a key column deduplicates keeping the first
occurrence in source order: the surviving rows are a subsequence of the
input, the first row found for any key value is unchanged, and no two
surviving rows share a key value. -/
theorem C5_dedup_first (df : DataFrame) (c : String) (i : Nat) (df' : DataFrame)
    (hi : df.cols.findIdx? (fun x => x == c) = some i)
    (h : df.dropDuplicates c = .ok df') :
    df'.rows.Sublist df.rows ∧
    (∀ k, df'.rows.find? (fun r => keyAt i r == k) =
      df.rows.find? (fun r => keyAt i r == k)) ∧
    df'.rows.Pairwise (fun a b => keyAt i a ≠ keyAt i b) := by
  unfold DataFrame.dropDuplicates at h
  by_cases hemp : df.rows.isEmpty = true
  · rw [if_pos hemp] at h
    have hdf : df' = df := (Except.ok.inj h).symm
    subst hdf
    refine ⟨List.Sublist.refl _, fun k => rfl, ?_⟩
    rw [List.isEmpty_iff.mp hemp]
    exact List.Pairwise.nil
  · rw [if_neg hemp, hi] at h
    have hdf : df' = ⟨df.cols, dedupFirstAux i [] df.rows⟩ := (Except.ok.inj h).symm
    subst hdf
    exact ⟨dedupFirstAux_sublist i df.rows [],
           fun k => dedupFirstAux_find? i df.rows [] k (List.not_mem_nil _),
           dedupFirstAux_pairwise i df.rows []⟩

/-- C5 witness: two source clients sharing `ci = "A1"` but with different
names dedup to exactly the first record `Ana Ruiz`, with pairwise-distinct
keys. -/
theorem C5_dedup_first_witness :
    wDfDedup.rows.Sublist (clientesDF [wCliAna, wCliEva]).rows ∧
    wDfDedup.rows.find? (fun r => keyAt 0 r == Value.str "A1") =
      (clientesDF [wCliAna, wCliEva]).rows.find? (fun r => keyAt 0 r == Value.str "A1") ∧
    wDfDedup.rows.Pairwise (fun a b => keyAt 0 a ≠ keyAt 0 b) :=
  ⟨(C5_dedup_first (clientesDF [wCliAna, wCliEva]) "ci" 0 wDfDedup rfl rfl).1,
   (C5_dedup_first (clientesDF [wCliAna, wCliEva]) "ci" 0 wDfDedup rfl rfl).2.1 (Value.str "A1"),
   (C5_dedup_first (clientesDF [wCliAna, wCliEva]) "ci" 0 wDfDedup rfl rfl).2.2⟩

/-- C6: type coercion never aborts a contract row or the run: a contract
whose date string does not parse and whose amount string does not parse is
still normalized and persisted (under an engine that accepts every
statement), with a null date and a null amount. -/
theorem C6_coercion_absorbed (rawC : List ClienteRec) (rawK : List CasoRec)
    (rawS : List ServicioRec) (db : DB) (s : ServicioRec) (ds ms : String)
    (hfirst : rawS.find? (fun x => x.id == s.id) = some s)
    (hfecha : s.fecha = .str ds) (hd : parseDate ds = none)
    (hmonto : s.precioBS = .str ms) (hm : parseDecimal ms = none)
    (hfresh : findByKey db.contratoServicio s.id = none) :
    ∃ out, mainRun noFail rawC rawK rawS db = .ok out ∧ out.result = .ok () ∧
      findByKey out.committed.contratoServicio s.id =
        some [s.id, Value.null, Value.null,
              s.cliente.getD Value.null, s.caso.getD Value.null] := by
  obtain ⟨out, hrun, hres, hcom, hfind⟩ := mainRun_noFail_found rawC rawK rawS db s hfirst hfresh
  refine ⟨out, hrun, hres, ?_⟩
  rw [hfind]
  have hrow : coerceServRow (servRow s) =
      [s.id, toDatetimeCoerce s.fecha, coerceMonto s.precioBS,
       s.cliente.getD Value.null, s.caso.getD Value.null] := rfl
  rw [hrow, hfecha, hmonto]
  simp [toDatetimeCoerce, coerceMonto, toNumericCoerce, hd, hm]

/-- C6 witness: the contract `K2` with date `"pronto"` and amount
`"gratis"` is persisted with null date and null amount, and the run
succeeds. -/
theorem C6_coercion_absorbed_witness :
    mainRun noFail [] [] [wServBad] emptyDB = .ok wOutBad ∧
    wOutBad.result = .ok () ∧
    findByKey wOutBad.committed.contratoServicio (Value.str "K2") =
      some [Value.str "K2", Value.null, Value.null, Value.null, Value.null] := by
  obtain ⟨out, h1, h2, h3⟩ := C6_coercion_absorbed [] [] [wServBad] emptyDB wServBad
    "pronto" "gratis" rfl rfl rfl rfl rfl rfl
  have hout : out = wOutBad := by
    have h4 : mainRun noFail [] [] [wServBad] emptyDB = .ok wOutBad := rfl
    rw [h1] at h4
    exact Except.ok.inj h4
  exact ⟨hout ▸ h1, hout ▸ h2, hout ▸ h3⟩

/-- C7: the scenario input (client `A1 Ana Ruiz`, case `C1 civil`,
contract `K1` dated `2024-03-01` with amount `150.555` and references to
`A1` and `C1`) persists exactly the three expected rows, the monetary
amount stored rounded to two decimals as `150.56` (`num 15056 2`). The
IEEE-double pipeline agrees: the double nearest `150.555` times 100 is
exactly `15055.5`, whose half-even rint is `15056`. -/
theorem C7_scenario_rounding :
    mainRun noFail [wCliAna] [wCaso] [wServ] emptyDB =
      .ok ⟨.ok (), ⟨[[Value.str "A1", Value.str "Ana", Value.str "Ruiz"]],
                    [[Value.str "C1", Value.str "civil"]],
                    [[Value.str "K1", Value.date 2024 3 1, Value.num 15056 2,
                      Value.str "A1", Value.str "C1"]]⟩, 1⟩ := by
  rfl

/-- C8: a contract whose embedded client and/or case reference is absent
is not rejected: it is persisted (under an engine that accepts every
statement), and the absent reference columns are null in the stored row. -/
theorem C8_orphan_references (rawC : List ClienteRec) (rawK : List CasoRec)
    (rawS : List ServicioRec) (db : DB) (s : ServicioRec)
    (hfirst : rawS.find? (fun x => x.id == s.id) = some s)
    (hfresh : findByKey db.contratoServicio s.id = none) :
    ∃ out row, mainRun noFail rawC rawK rawS db = .ok out ∧ out.result = .ok () ∧
      findByKey out.committed.contratoServicio s.id = some row ∧
      (s.cliente = none → keyAt 3 row = Value.null) ∧
      (s.caso = none → keyAt 4 row = Value.null) := by
  obtain ⟨out, hrun, hres, hcom, hfind⟩ := mainRun_noFail_found rawC rawK rawS db s hfirst hfresh
  refine ⟨out, coerceServRow (servRow s), hrun, hres, hfind, ?_, ?_⟩
  · intro hc
    have h3 : keyAt 3 (coerceServRow (servRow s)) = s.cliente.getD Value.null := rfl
    rw [h3, hc]
    rfl
  · intro hk
    have h4 : keyAt 4 (coerceServRow (servRow s)) = s.caso.getD Value.null := rfl
    rw [h4, hk]
    rfl

/-- C8 witness: the contract `K3` with absent client and case references
is persisted with null references. -/
theorem C8_orphan_references_witness :
    mainRun noFail [] [] [wServNulls] emptyDB = .ok wOutNulls ∧
    findByKey wOutNulls.committed.contratoServicio (Value.str "K3") = some wRowNulls ∧
    keyAt 3 wRowNulls = Value.null ∧ keyAt 4 wRowNulls = Value.null := by
  obtain ⟨out, row, h1, h2, h3, h4, h5⟩ :=
    C8_orphan_references [] [] [wServNulls] emptyDB wServNulls rfl rfl
  have hout : out = wOutNulls := by
    have h6 : mainRun noFail [] [] [wServNulls] emptyDB = .ok wOutNulls := rfl
    rw [h1] at h6
    exact Except.ok.inj h6
  have hrow : row = wRowNulls := by
    have h8 : findByKey out.committed.contratoServicio wServNulls.id = some wRowNulls := by
      rw [hout]
      rfl
    rw [h3] at h8
    exact Option.some.inj h8
  refine ⟨hout ▸ h1, ?_, hrow ▸ h4 rfl, hrow ▸ h5 rfl⟩
  rw [← hout, ← hrow]
  exact h3

/-- C9 counterexample: a run whose Client insert fails on key `A1` and a
run whose ServiceContract insert fails on key `K1` produce exactly the
same observable outcome — the wrapped error message is identical, so the
error does not identify which entity type or primary key failed. -/
theorem C9_counterexample :
    mainRun engFailCliente [wCliAna] [wCaso] [wServ] emptyDB =
      mainRun engFailServicio [wCliAna] [wCaso] [wServ] emptyDB ∧
    mainRun engFailCliente [wCliAna] [wCaso] [wServ] emptyDB = .ok wOutFail ∧
    engFailCliente Entity.cliente [Value.str "A1", Value.str "Ana", Value.str "Ruiz"] =
      some "FOREIGN KEY constraint failure" ∧
    engFailCliente Entity.contratoServicio wRowK1 = none ∧
    engFailServicio Entity.cliente [Value.str "A1", Value.str "Ana", Value.str "Ruiz"] = none ∧
    engFailServicio Entity.contratoServicio wRowK1 = some "FOREIGN KEY constraint failure" :=
  ⟨rfl, rfl, rfl, rfl, rfl, rfl⟩

/-- C9 amended: when a store-level insert fails, the run fails with a
single generic exception that wraps the underlying store error message
behind the fixed prefix `Error al guardar los datos en la base de datos:`;
the wrapper itself does not identify the failing entity type or key (the
message depends only on the underlying store error). -/
theorem C9_amended_wrapped (eng : Engine) (rawC : List ClienteRec) (rawK : List CasoRec)
    (rawS : List ServicioRec) (db : DB) (out : RunOutcome) (m : String)
    (h : mainRun eng rawC rawK rawS db = .ok out)
    (he : out.result = .error m) :
    ∃ inner, m = wrapDbError inner ∧ ∃ e row, eng e row = some inner := by
  unfold mainRun at h
  cases hlim : limpiar_dataframes (clientesDF rawC) (casosDF rawK)
      (procesar_datos_servicios rawS) with
  | error e =>
    rw [hlim] at h
    simp at h
  | ok dfs =>
    obtain ⟨dfC, dfK, dfS⟩ := dfs
    rw [hlim] at h
    have hout : out = persistRun eng db dfC dfK dfS := (Except.ok.inj h).symm
    subst hout
    revert he
    unfold persistRun
    cases h1 : insertRows eng .cliente db.cliente dfC.rows with
    | error m1 =>
      intro he
      obtain ⟨row, hrow, hsrc⟩ := insertRows_error_source eng _ _ _ _ h1
      exact ⟨m1, (Except.error.inj he).symm, .cliente, row, hsrc⟩
    | ok tc =>
      cases h2 : insertRows eng .casoJuridico db.casoJuridico dfK.rows with
      | error m2 =>
        intro he
        obtain ⟨row, hrow, hsrc⟩ := insertRows_error_source eng _ _ _ _ h2
        exact ⟨m2, (Except.error.inj he).symm, .casoJuridico, row, hsrc⟩
      | ok tk =>
        cases h3 : insertRows eng .contratoServicio db.contratoServicio dfS.rows with
        | error m3 =>
          intro he
          obtain ⟨row, hrow, hsrc⟩ := insertRows_error_source eng _ _ _ _ h3
          exact ⟨m3, (Except.error.inj he).symm, .contratoServicio, row, hsrc⟩
        | ok ts =>
          intro he
          simp at he

/-- C9 witness: the failing ServiceContract run wraps its store error
behind the fixed prefix, the inner message coming from the engine. -/
theorem C9_amended_wrapped_witness :
    ∃ inner, wrapDbError "FOREIGN KEY constraint failure" = wrapDbError inner ∧
      ∃ e row, engFailServicio e row = some inner :=
  C9_amended_wrapped engFailServicio [wCliAna] [wCaso] [wServ] emptyDB wOutFail
    (wrapDbError "FOREIGN KEY constraint failure") rfl rfl

/-- C10: the query client's protocol-error check is exactly the HTTP
status test: the explicit protocol exception is raised iff the status code
is not 200; a 200 response without a `"data"` key fails with an unwrapped
`KeyError` instead, and a 200 GraphQL error response with `"data": null`
slips through and only fails with a `TypeError` when the caller indexes
the payload. -/
theorem C10_protocol_check (resp : HttpResponse) :
    ((∃ m, consulta_graphql resp = .error (.raised m)) ↔ resp.statusCode ≠ 200) ∧
    (resp.statusCode = 200 → resp.body.lookup "data" = none →
      consulta_graphql resp = .error (.keyError "data")) ∧
    (resp.statusCode = 200 → resp.body.lookup "data" = some Json.null →
      fetchField resp "allClientes" =
        .error (.typeError "NoneType object is not subscriptable")) := by
  refine ⟨⟨?_, ?_⟩, ?_, ?_⟩
  · rintro ⟨m, hm⟩ h200
    unfold consulta_graphql at hm
    rw [if_neg (fun hn => hn h200)] at hm
    cases hlook : resp.body.lookup "data" with
    | some v =>
      rw [hlook] at hm
      simp at hm
    | none =>
      rw [hlook] at hm
      simp at hm
  · intro hne
    exact ⟨_, by unfold consulta_graphql; rw [if_pos hne]⟩
  · intro h200 hlook
    unfold consulta_graphql
    rw [if_neg (fun hn => hn h200), hlook]
  · intro h200 hlook
    unfold fetchField consulta_graphql
    rw [if_neg (fun hn => hn h200), hlook]
    rfl

/-- C10 witness: a 500 response raises the protocol exception; a 200
response without `"data"` raises `KeyError`; a 200 response with
`"data": null` raises `TypeError` at payload extraction. -/
theorem C10_protocol_check_witness :
    consulta_graphql respErr500 = .error (.raised "Error al consultar GraphQL (500)") ∧
    consulta_graphql respNoData = .error (.keyError "data") ∧
    fetchField respNullData "allClientes" =
      .error (.typeError "NoneType object is not subscriptable") :=
  ⟨rfl, (C10_protocol_check respNoData).2.1 rfl rfl,
   (C10_protocol_check respNullData).2.2 rfl rfl⟩
